import Mathlib

/-!
Shallow embedding of the valuation engine of the `stock_analytics` repository
(`value_calculation.py` and the valuation entry points of `panel_app.py`).

Python values flowing through the engine are modelled as follows:
* raw metric values (string / number / null) become `RawValue`, with Python
  floats modelled exactly by `ℚ`;
* Python dicts become association lists with unique keys maintained by
  `dictInsert` (replace in place, else append), matching dict update order;
* fallible Python operations (`float(...)`, list indexing) become `Option`;
* a Python method that can raise an uncaught exception returns `Except Unit`
  (`.error ()` marks the raised exception).
-/

/-- A raw metric value as the Python code receives it: a string, a number
(Python `int`/`float`, modelled exactly by `ℚ`), or `None`. -/
inductive RawValue where
  | num (q : ℚ)
  | str (s : String)
  | null
  deriving DecidableEq, Repr

/-- A Python dict with string keys, as an association list in insertion order. -/
abbrev Dict := List (String × RawValue)

/-- First binding of key `k` in the dict (Python `d[k]` / `d.get(k)` when keys
are unique, which `dictInsert` maintains). -/
def dictGet (d : Dict) (k : String) : Option RawValue :=
  match d.find? (fun kv => kv.1 = k) with
  | some kv => some kv.2
  | none => none

/-- Python `d[k] = v`: replace the existing binding in place, else append. -/
def dictInsert (d : Dict) (k : String) (v : RawValue) : Dict :=
  if d.any (fun kv => kv.1 = k) then
    d.map (fun kv => if kv.1 = k then (k, v) else kv)
  else d ++ [(k, v)]

/-- Python `d.get(k)` with `None` for a missing key (`None` is `.null`). -/
def rawGet (d : Dict) (k : String) : RawValue :=
  (dictGet d k).getD .null

/-- Python truthiness of a value: `None`, `0` and `""` are falsy. -/
def rawTruthy : RawValue → Bool
  | .num q => q ≠ 0
  | .str s => s ≠ ""
  | .null => false

/-- Python `a or b` on raw values. -/
def rawOr (a b : RawValue) : RawValue :=
  if rawTruthy a then a else b

/-- Python `a or b` on optional floats (`0.0` and `None` are falsy). -/
def pyOrQ (a b : Option ℚ) : Option ℚ :=
  match a with
  | some q => if q ≠ 0 then some q else b
  | none => b

/-! ### String helpers (ASCII models of the Python string methods used) -/

/-- Decimal digit test (`\d` of the regexes, `str.isdigit` range used here). -/
def isDigitCh (c : Char) : Bool := '0' ≤ c ∧ c ≤ '9'

/-- Python `str.strip()` on a character list. -/
def stripWs (cs : List Char) : List Char :=
  ((cs.dropWhile Char.isWhitespace).reverse.dropWhile Char.isWhitespace).reverse

/-- Python `str.strip()`. -/
def pyStrip (s : String) : String := String.mk (stripWs s.toList)

/-- Python `str.lower()` (ASCII model). -/
def pyLower (s : String) : String := String.mk (s.toList.map Char.toLower)

/-- Python `str.replace(c, "")` for each character of `ban`, on a list. -/
def removeChs (cs : List Char) (ban : List Char) : List Char :=
  cs.filter (fun c => ¬ ban.contains c)

/-- Python `k.replace("_", "")`, used by the aliased lookup. -/
def remUnderscore (s : String) : String := String.mk (removeChs s.toList ['_'])

/-! ### Model of the Python builtin `float(str)`

Accepts (after stripping whitespace) an optional sign, a decimal mantissa
`digits [. digits]` or `. digits`, and an optional exponent `e/E [sign] digits`.
`inf`/`nan` and underscore digit grouping are not modelled (never produced by
this code's inputs of interest). `none` models the raised `ValueError`. -/

/-- Numeric value of a digit string. -/
def digitsVal (cs : List Char) : ℕ :=
  cs.foldl (fun a c => a * 10 + (c.toNat - 48)) 0

/-- Parse the exponent suffix onto the mantissa `m`; empty input keeps `m`. -/
def parseExpPart (m : ℚ) : List Char → Option ℚ
  | [] => some m
  | e :: rest =>
    if e = 'e' ∨ e = 'E' then
      let (sgn, ds) : ℤ × List Char :=
        match rest with
        | '+' :: r => (1, r)
        | '-' :: r => (-1, r)
        | r => (1, r)
      if ds ≠ [] ∧ ds.all isDigitCh then
        some (m * (10 : ℚ) ^ (sgn * (digitsVal ds : ℤ)))
      else none
    else none

/-- Mantissa (no sign) plus optional exponent. -/
def pyFloatCore (cs : List Char) : Option ℚ :=
  let intPart := cs.takeWhile isDigitCh
  let rest := cs.dropWhile isDigitCh
  match rest with
  | [] => if intPart = [] then none else some (digitsVal intPart)
  | '.' :: rest2 =>
    let fracPart := rest2.takeWhile isDigitCh
    let rest3 := rest2.dropWhile isDigitCh
    if intPart = [] ∧ fracPart = [] then none
    else
      parseExpPart
        ((digitsVal intPart : ℚ) + (digitsVal fracPart : ℚ) / (10 : ℚ) ^ fracPart.length)
        rest3
  | _ =>
    if intPart = [] then none else parseExpPart (digitsVal intPart) rest

/-- Python `float(s)` on the characters of `s`; `none` models the raised
`ValueError`. -/
def pyFloat (s : List Char) : Option ℚ :=
  match stripWs s with
  | '+' :: r => pyFloatCore r
  | '-' :: r => (pyFloatCore r).map Neg.neg
  | r => pyFloatCore r

/-- Python `float(v)` applied to a stored value (`float` of a string may
raise, modelled as `none`; `float` of a number succeeds). -/
def pyFloatVal : RawValue → Option ℚ
  | .num q => some q
  | .str s => pyFloat s.toList
  | .null => none

/-! ### `Stock._parse_number` -/

/-- Character class of the suffix-regex body `[\d,.]`. -/
def bodyClass (c : Char) : Bool := isDigitCh c ∨ c = ',' ∨ c = '.'

/-- Character class `[kmbKMb]` of the suffix regex in `_parse_number`.
Note: the class in the source is literally `[kmbKMb]` — uppercase `B` is
absent (the final `b` is a duplicate). -/
def suffixClass (c : Char) : Bool := c ∈ ['k', 'm', 'b', 'K', 'M']

/-- Model of `re.match(r'^([+-]?[\d,.]+)\s*([kmbKMb]?)$', s)`: returns the
signed body (group 1) and the optional suffix character (group 2). -/
def matchSuffixRe (s : List Char) : Option (List Char × Option Char) :=
  let (sgn, r) : List Char × List Char :=
    match s with
    | '+' :: r => (['+'], r)
    | '-' :: r => (['-'], r)
    | r => ([], r)
  let body := r.takeWhile bodyClass
  let rest := r.dropWhile bodyClass
  if body = [] then none
  else
    match rest.dropWhile Char.isWhitespace with
    | [] => some (sgn ++ body, none)
    | [c] => if suffixClass c then some (sgn ++ body, some c) else none
    | _ => none

/-- `Stock._parse_number`: best-effort numeric parse of a raw value.
`none` models the Python `None` result (any internal exception is caught). -/
def parseNumber : RawValue → Option ℚ
  | .null => none
  | .num q => some q
  | .str v =>
    -- s = str(v).strip()
    let s := stripWs v.toList
    -- parentheses mark a negative: "(1,234)" -> -1234
    let neg := s.head? = some '(' ∧ s.getLast? = some ')'
    let s := if neg then stripWs (s.drop 1).dropLast else s
    if s.getLast? = some '%' then
      (pyFloat (removeChs s.dropLast [',', '$'])).map
        (fun num => if neg then -(num / 100) else num / 100)
    else
      match matchSuffixRe s with
      | some (signedBody, suf) =>
        (pyFloat (removeChs signedBody [','])).map (fun base =>
          let base :=
            match suf.map Char.toLower with
            | some 'k' => base * 1000
            | some 'm' => base * 1000000
            | some 'b' => base * 1000000000
            | _ => base
          if neg then -base else base)
      | none =>
        (pyFloat (removeChs s [',', '$'])).map (fun num => if neg then -num else num)

/-! ### Key normalization (`Stock._normalize_keys`) -/

/-- Replace each character outside `[0-9a-z]` by an underscore. -/
def isAlnumLower (c : Char) : Bool := isDigitCh c ∨ ('a' ≤ c ∧ c ≤ 'z')

/-- Collapse consecutive underscores to one (together with `mapToUnderscore`
this models `re.sub(r'[^0-9a-z]+', '_', kn)`). -/
def collapseU : List Char → List Char
  | [] => []
  | [c] => [c]
  | c₁ :: c₂ :: rest =>
    if c₁ = '_' ∧ c₂ = '_' then collapseU (c₂ :: rest)
    else c₁ :: collapseU (c₂ :: rest)

/-- `Stock._normalize_keys` on one key: strip, lowercase, replace runs of
non-alphanumerics with a single underscore, strip leading/trailing
underscores. -/
def normalizeKey (k : String) : String :=
  let kn := pyLower (pyStrip k)
  let subbed := collapseU (kn.toList.map (fun c => if isAlnumLower c then c else '_'))
  String.mk ((subbed.dropWhile (· = '_')).reverse.dropWhile (· = '_')).reverse

/-- `Stock._normalize_keys`: rebuild the dict with normalized keys
(last write wins on collisions, as for a Python dict). -/
def normalizeKeys (d : Dict) : Dict :=
  d.foldl (fun acc kv => dictInsert acc (normalizeKey kv.1) kv.2) []

/-! ### `Stock._get_number`, `Stock._extract_price`, `Stock._infer_tax_rate` -/

/-- `Stock._get_number`: direct lookup of the lowercased key; when the lookup
yields `None` (key absent, or present with a null value) retry by comparing
all keys with underscores removed; finally parse. -/
def getNumber (norm : Dict) (key : String) : Option ℚ :=
  if key = "" then none
  else
    let k := pyLower key
    let v : RawValue :=
      match dictGet norm k with
      | some (.num q) => .num q
      | some (.str s) => .str s
      | _ =>
        -- `v is None`: scan for the first key matching with underscores removed
        let alt := remUnderscore k
        match norm.find? (fun kv => remUnderscore kv.1 = alt) with
        | some kv => kv.2
        | none => .null
    parseNumber v

/-- One loop of `Stock._extract_price`: first key whose stored value is
non-null and parses. -/
def tryPriceKeys (norm : Dict) : List String → Option ℚ
  | [] => none
  | k :: ks =>
    match dictGet norm k with
    | some v =>
      if v ≠ .null then
        match parseNumber v with
        | some p => some p
        | none => tryPriceKeys norm ks
      else tryPriceKeys norm ks
    | none => tryPriceKeys norm ks

/-- `Stock._extract_price`. -/
def extractPrice (norm : Dict) : Option ℚ :=
  match tryPriceKeys norm ["price", "currentprice", "lastprice", "previousclose"] with
  | some p => some p
  | none =>
    tryPriceKeys norm ["regularmarketprice", "regularmarketpreviousclose", "previousclose"]

/-- `Stock._infer_tax_rate`: `tax_provision / pretax_income` over best-effort
aliases, only when both are truthy (Python `if tp and pretax and pretax != 0`). -/
def inferTaxRate (norm : Dict) : Option ℚ :=
  let tp := pyOrQ (pyOrQ (getNumber norm "tax_provision") (getNumber norm "tax_ttm"))
    (getNumber norm "tax")
  let pretax := pyOrQ (getNumber norm "pretax_income") (getNumber norm "ebt_ttm")
  match tp, pretax with
  | some t, some p => if t ≠ 0 ∧ p ≠ 0 then some (t / p) else none
  | _, _ => none

/-! ### The `Stock` entity (the Valuation state) -/

/-- The `Stock` object after `__init__` (including `_fill_derived`).
`price` keeps the Python value of `self.price`: the constructor stores the
caller's `price` argument unparsed when it is not `None`, else the parsed
extraction result; `.null` is Python `None`. All other numeric fields are
parsed floats or `None`. -/
structure Stock where
  ticker : RawValue
  norm : Dict
  price : RawValue
  shares : Option ℚ
  market_cap : Option ℚ
  enterprise_value : Option ℚ
  revenue_ttm : Option ℚ
  ebit_ttm : Option ℚ
  net_income_ttm : Option ℚ
  total_debt : Option ℚ
  total_cash : Option ℚ
  capex_ttm : Option ℚ
  depr_ttm : Option ℚ
  change_wc : Option ℚ
  tax_rate : Option ℚ
  price_to_book : Option ℚ
  pe : Option ℚ
  ps : Option ℚ
  dividend_rate : Option ℚ
  dividend_yield : Option ℚ
  deriving DecidableEq, Repr

/-- Python `v != 0` on a stored value (a string is unequal to `0`). -/
def pyNeZero : RawValue → Bool
  | .num q => q ≠ 0
  | .str _ => true
  | .null => true

/-- `Stock._fill_derived`: one derivation pass over the constructed fields.
Each Python `try/except: pass` around an arithmetic step is modelled by
leaving the target unchanged when `float(...)` fails or a division by zero
would raise. -/
def fillDerived (st : Stock) : Stock :=
  -- Price: try to get from normalized raw if not passed
  let price : RawValue :=
    match st.price with
    | .null =>
      match extractPrice st.norm with
      | some p => .num p
      | none => .null
    | v => v
  -- Market cap <-> shares relation
  let market_cap : Option ℚ :=
    match st.market_cap, st.shares, price with
    | none, some _, .null => none
    | none, some s, pv =>
      match pyFloatVal pv with
      | some p => some (s * p)
      | none => none
    | mc, _, _ => mc
  let shares : Option ℚ :=
    match st.shares, market_cap, price with
    | none, some _, .null => none
    | none, some m, pv =>
      -- Python guard `self.price != 0` (a string compares unequal to 0)
      if pyNeZero pv then
        match pyFloatVal pv with
        | some p => if p ≠ 0 then some (m / p) else none
        | none => none
      else none
    | sh, _, _ => sh
  -- Enterprise value from market cap + debt - cash
  let enterprise_value : Option ℚ :=
    match st.enterprise_value, market_cap with
    | none, some m => some (m + st.total_debt.getD 0 - st.total_cash.getD 0)
    | ev, _ => ev
  -- Revenue estimate from market_cap / PS if missing
  let revenue_ttm : Option ℚ :=
    match st.revenue_ttm, st.ps, market_cap with
    | none, some ps, some m => if ps ≠ 0 then some (m / ps) else none
    | rv, _, _ => rv
  -- Net income estimate from market_cap / P/E if missing
  let net_income_ttm : Option ℚ :=
    match st.net_income_ttm, st.pe, market_cap with
    | none, some pe, some m => if pe ≠ 0 then some (m / pe) else none
    | ni, _, _ => ni
  -- Dividend yield from dividend rate and price
  let dividend_yield : Option ℚ :=
    match st.dividend_yield, st.dividend_rate, price with
    | none, some _, .null => none
    | none, some r, pv =>
      if pyNeZero pv then
        match pyFloatVal pv with
        | some p => if p ≠ 0 then some (r / p) else none
        | none => none
      else none
    | dy, _, _ => dy
  -- If tax_rate still missing try to infer again
  let tax_rate : Option ℚ :=
    match st.tax_rate with
    | none => inferTaxRate st.norm
    | t => t
  { st with price, market_cap, shares, enterprise_value, revenue_ttm,
            net_income_ttm, dividend_yield, tax_rate }

/-- `Stock.__init__`: normalize keys, resolve price, parse the primary
fields (with their alias chains combined by Python `or`), then run the
derivation pass. `priceArg = .null` models the default `price=None`. -/
def stockInit (ticker : RawValue) (metrics : Dict) (priceArg : RawValue) : Stock :=
  let norm := normalizeKeys metrics
  let price : RawValue :=
    match priceArg with
    | .null =>
      match extractPrice norm with
      | some p => .num p
      | none => .null
    | v => v
  fillDerived
    { ticker := ticker
      norm := norm
      price := price
      shares := getNumber norm "shares_outstanding"
      market_cap := getNumber norm "market_cap"
      enterprise_value := getNumber norm "enterprise_value"
      revenue_ttm := getNumber norm "revenue_ttm"
      ebit_ttm := pyOrQ (getNumber norm "ebit_ttm") (getNumber norm "operating_income_ttm")
      net_income_ttm := getNumber norm "net_income_ttm"
      total_debt := getNumber norm "total_debt"
      total_cash := getNumber norm "total_cash"
      capex_ttm := getNumber norm "capital_expenditures_ttm"
      depr_ttm := getNumber norm "depreciation_amortization_ttm"
      change_wc := getNumber norm "change_in_working_capital_ttm"
      tax_rate := pyOrQ (getNumber norm "tax_rate_ttm") (inferTaxRate norm)
      price_to_book := pyOrQ (getNumber norm "p_b") (getNumber norm "price_to_book")
      pe := pyOrQ (pyOrQ (getNumber norm "p_e_ttm") (getNumber norm "trailingpe"))
        (getNumber norm "pe")
      ps := pyOrQ (pyOrQ (getNumber norm "p_s_ttm") (getNumber norm "trailingsales"))
        (getNumber norm "ps")
      dividend_rate := pyOrQ (getNumber norm "dividend_rate") (getNumber norm "dividend")
      dividend_yield := getNumber norm "dividend_yield" }

/-- Construction as done for a bare metrics record (default `price=None`). -/
def stockFromMetrics (metrics : Dict) : Stock :=
  stockInit (.str "") metrics .null

/-! ### `Stock.get_relative_value` -/

/-- Result record of `get_relative_value` (keys P/E, P/S, P/B, EV/Revenue,
EV/EBIT, Debt/Equity). -/
structure RelResult where
  pe : Option ℚ
  ps : Option ℚ
  pb : Option ℚ
  ev_revenue : Option ℚ
  ev_ebit : Option ℚ
  debt_equity : Option ℚ
  deriving DecidableEq, Repr

/-- `Stock.get_relative_value`. The guards are Python truthiness tests
(`if (a and b)`), so a zero operand also yields `None`; the Debt/Equity
denominator check is only `denom != 0` (no sign requirement). -/
def get_relative_value (st : Stock) : RelResult :=
  let pe : Option ℚ :=
    match st.pe with
    | some v => some v
    | none =>
      match st.market_cap, st.net_income_ttm with
      | some m, some n => if m ≠ 0 ∧ n ≠ 0 then some (m / n) else none
      | _, _ => none
  let ps : Option ℚ :=
    match st.ps with
    | some v => some v
    | none =>
      match st.market_cap, st.revenue_ttm with
      | some m, some r => if m ≠ 0 ∧ r ≠ 0 then some (m / r) else none
      | _, _ => none
  let evRevenue : Option ℚ :=
    match st.enterprise_value, st.revenue_ttm with
    | some e, some r => if e ≠ 0 ∧ r ≠ 0 then some (e / r) else none
    | _, _ => none
  let evEbit : Option ℚ :=
    match st.enterprise_value, st.ebit_ttm with
    | some e, some b => if e ≠ 0 ∧ b ≠ 0 then some (e / b) else none
    | _, _ => none
  let debtEquity : Option ℚ :=
    match st.market_cap, st.total_debt with
    | some m, some d =>
      let denom := m - d
      if denom ≠ 0 then some (d / denom) else none
    | _, _ => none
  { pe := pe, ps := ps, pb := st.price_to_book,
    ev_revenue := evRevenue, ev_ebit := evEbit, debt_equity := debtEquity }

/-! ### `Stock._estimate_fcf_ttm` and `Stock.get_dcf` -/

/-- `Stock._estimate_fcf_ttm`: net income + depreciation − capex − ΔWC when
net income is present, else EBIT×(1−tax)−capex (tax 0.25 when unknown),
else `None`. -/
def estimateFcf (st : Stock) : Option ℚ :=
  match st.net_income_ttm with
  | some ni => some (ni + st.depr_ttm.getD 0 - st.capex_ttm.getD 0 - st.change_wc.getD 0)
  | none =>
    match st.ebit_ttm with
    | some e => some (e * (1 - st.tax_rate.getD (1 / 4)) - st.capex_ttm.getD 0)
    | none => none

/-- Decidable equality for `Except` results, used to state concrete
evaluations of the fallible methods. -/
instance {e a : Type} [DecidableEq e] [DecidableEq a] : DecidableEq (Except e a) := fun x y =>
  match x, y with
  | .ok u, .ok v => decidable_of_iff (u = v) (by simp)
  | .error u, .error v => decidable_of_iff (u = v) (by simp)
  | .ok _, .error _ => isFalse (by simp)
  | .error _, .ok _ => isFalse (by simp)

/-- Result record of `get_dcf`. -/
structure DcfResult where
  dcf_pv : Option ℚ
  equity_value : Option ℚ
  intrinsic_price : Option ℚ
  fcf_ttm_estimate : Option ℚ
  deriving DecidableEq, Repr

/-- Tail of `get_dcf` after the terminal value `tv` is known: discount the
terminal value over `years` (the raw int parameter), add the projection PV,
subtract debt, add cash, and divide by shares when positive. -/
def dcfAssemble (st : Stock) (years : ℤ) (discount fcf0 pvProjs tv : ℚ) : DcfResult :=
  let pv_tv := tv / (1 + discount) ^ years
  let enterprise_value_est := pvProjs + pv_tv
  let equity_value := enterprise_value_est - st.total_debt.getD 0 + st.total_cash.getD 0
  let intrinsic_price : Option ℚ :=
    match st.shares with
    | some sh => if sh ≠ 0 ∧ 0 < sh then some (equity_value / sh) else none
    | none => none
  { dcf_pv := some enterprise_value_est, equity_value := some equity_value,
    intrinsic_price := intrinsic_price, fcf_ttm_estimate := some fcf0 }

/-- The `else` (Gordon terminal value) branch of `get_dcf`: bail out when
`discount ≤ terminal_growth`, otherwise read the final projection
(`fcf_projs[-1]`, an IndexError — `.error ()` — when the projection list is
empty). -/
def dcfGordonTail (st : Stock) (years : ℤ)
    (discount terminal_growth fcf0 pvProjs : ℚ) (last? : Option ℚ) :
    Except Unit DcfResult :=
  if discount ≤ terminal_growth then
    .ok { dcf_pv := none, equity_value := none, intrinsic_price := none,
          fcf_ttm_estimate := some fcf0 }
  else
    match last? with
    | none => .error ()
    | some lastp =>
      .ok (dcfAssemble st years discount fcf0 pvProjs
        (lastp * (1 + terminal_growth) / (discount - terminal_growth)))

/-- The terminal-value choice of `get_dcf`
(`if terminal_multiple and fcf_projs[-1] is not None: ... else: ...`):
a truthy multiple reads `fcf_projs[-1]` (IndexError on an empty list),
a falsy or absent multiple falls to the Gordon branch. -/
def dcfTerminalChoice (st : Stock) (years : ℤ)
    (discount terminal_growth fcf0 pvProjs : ℚ) (last? : Option ℚ)
    (terminal_multiple : Option ℚ) : Except Unit DcfResult :=
  match terminal_multiple with
  | some tm =>
    if tm ≠ 0 then
      match last? with
      | none => .error ()
      | some lastp => .ok (dcfAssemble st years discount fcf0 pvProjs (lastp * tm))
    else dcfGordonTail st years discount terminal_growth fcf0 pvProjs last?
  | none => dcfGordonTail st years discount terminal_growth fcf0 pvProjs last?

/-- `Stock.get_dcf`. `years` is the raw Python int; `range(1, years+1)` has
`years.toNat` elements. `.error ()` models the uncaught IndexError raised by
`fcf_projs[-1]` when the projection list is empty. -/
def get_dcf (st : Stock) (years : ℤ)
    (growth discount terminal_growth : ℚ) (terminal_multiple : Option ℚ) :
    Except Unit DcfResult :=
  match estimateFcf st with
  | none =>
    .ok { dcf_pv := none, equity_value := none, intrinsic_price := none,
          fcf_ttm_estimate := none }
  | some fcf0 =>
    if discount ≤ 0 then
      .ok { dcf_pv := none, equity_value := none, intrinsic_price := none,
            fcf_ttm_estimate := none }
    else
      let fcfProjs : List ℚ :=
        (List.range years.toNat).map (fun i => fcf0 * (1 + growth) ^ (i + 1))
      let pvProjs : ℚ :=
        ((List.range fcfProjs.length).map
          (fun i => fcfProjs.getD i 0 / (1 + discount) ^ (i + 1))).sum
      dcfTerminalChoice st years discount terminal_growth fcf0 pvProjs
        fcfProjs.getLast? terminal_multiple

/-! ### `Stock.get_growth_dividend_valuation` -/

/-- Result record of `get_growth_dividend_valuation`. -/
structure GordonResult where
  gordon_value : Option ℚ
  dividend_annual : Option ℚ
  deriving DecidableEq, Repr

/-- Tail of the Gordon valuation once the annual dividend `d` is known. -/
def gordonFrom (d required_return growth : ℚ) : GordonResult :=
  if required_return ≤ growth then
    { gordon_value := none, dividend_annual := some d }
  else
    { gordon_value := some (d * (1 + growth) / (required_return - growth)),
      dividend_annual := some d }

/-- The `elif self.dividend_yield and self.price` branch: multiplying the
yield by a string price is an uncaught TypeError (`.error ()`). -/
def gordonYieldCase (st : Stock) (required_return growth : ℚ) :
    Except Unit GordonResult :=
  match st.dividend_yield with
  | some y =>
    if y ≠ 0 ∧ rawTruthy st.price then
      match st.price with
      | .num p => .ok (gordonFrom (y * p) required_return growth)
      | _ => .error ()
    else .ok { gordon_value := none, dividend_annual := none }
  | none => .ok { gordon_value := none, dividend_annual := none }

/-- `Stock.get_growth_dividend_valuation`: the dividend figure is the rate
when truthy, else yield × price when both are truthy, else the result is
all-`None`; then the Gordon guard `required_return <= growth`. -/
def get_growth_dividend_valuation (st : Stock) (required_return growth : ℚ) :
    Except Unit GordonResult :=
  match st.dividend_rate with
  | some dr =>
    if dr ≠ 0 then .ok (gordonFrom dr required_return growth)
    else gordonYieldCase st required_return growth
  | none => gordonYieldCase st required_return growth

/-! ### `Stock.summary`, `panel_app.get_value`, `merge_valuations_into_metrics` -/

/-- Result of `summary`: `{'ticker': ...}` updated with the three result
records (their key sets are disjoint, so the merge keeps every entry). -/
structure SummaryResult where
  ticker : RawValue
  rel : RelResult
  dcf : DcfResult
  gordon : GordonResult
  deriving DecidableEq, Repr

/-- `Stock.summary`: relative value, DCF with default parameters
(`years=5, growth=0.03, discount=0.10, terminal_growth=0.02`), and Gordon
valuation with defaults (`required_return=0.10, growth=0.02`). An exception
raised by either method propagates. -/
def summary (st : Stock) : Except Unit SummaryResult :=
  match get_dcf st 5 (3 / 100) (1 / 10) (1 / 50) none with
  | .error e => .error e
  | .ok d =>
    match get_growth_dividend_valuation st (1 / 10) (1 / 50) with
    | .error e => .error e
    | .ok g => .ok { ticker := st.ticker, rel := get_relative_value st, dcf := d, gordon := g }

/-- The argument passed to `get_value`: either a (possibly empty) metrics
mapping, or any non-mapping Python value (`None`, a list, ...). -/
inductive PyInput where
  | mapping (d : Dict)
  | notMapping
  deriving DecidableEq, Repr

/-- The `method` selector of `get_value` (`other` is any unrecognized string). -/
inductive Method where
  | summaryM
  | relative
  | dcf
  | gordon
  | other
  deriving DecidableEq, Repr

/-- The record returned by `get_value`, tagged by the method that produced it. -/
inductive ValRecord where
  | summR (s : SummaryResult)
  | relR (r : RelResult)
  | dcfR (d : DcfResult)
  | gordonR (g : GordonResult)
  deriving DecidableEq, Repr

/-- `panel_app.get_value`: `None` for a falsy or non-mapping input; otherwise
build the `Stock` (ticker and price picked from the raw record by Python
`or` chains) and dispatch on the method, converting any raised exception to
`None`. -/
def get_value (input : PyInput) (method : Method) : Option ValRecord :=
  match input with
  | .notMapping => none
  | .mapping m =>
    if m = [] then none
    else
      let ticker :=
        rawOr (rawOr (rawOr (rawGet m "Ticker") (rawGet m "ticker")) (rawGet m "Symbol"))
          (.str "")
      let price := rawOr (rawGet m "Price") (rawGet m "price")
      let st := stockInit ticker m price
      match method with
      | .summaryM =>
        match summary st with
        | .ok s => some (.summR s)
        | .error _ => none
      | .relative => some (.relR (get_relative_value st))
      | .dcf =>
        match get_dcf st 5 (3 / 100) (1 / 10) (1 / 50) none with
        | .ok r => some (.dcfR r)
        | .error _ => none
      | .gordon =>
        match get_growth_dividend_valuation st (1 / 10) (1 / 50) with
        | .ok r => some (.gordonR r)
        | .error _ => none
      | .other => none

/-- `panel_app.merge_valuations_into_metrics`: shallow-copy the metrics (an
empty dict when the input is not a mapping), then write every valuation
entry under the prefixed key. A falsy `valuations` value skips the loop,
which over a dict is the same as looping over its (empty) items. -/
def merge_valuations_into_metrics (metrics : PyInput) (valuations : Dict)
    (pre : String) : Dict :=
  let out : Dict :=
    match metrics with
    | .mapping d => d
    | .notMapping => []
  valuations.foldl (fun acc kv => dictInsert acc (pre ++ kv.1) kv.2) out

/-! ### Derived quantities used to state the DCF claims -/

/-- The `dcf_pv` entry of a `get_dcf` result (`none` for a raised exception). -/
def dcfPvOf (r : Except Unit DcfResult) : Option ℚ :=
  match r with
  | .ok res => res.dcf_pv
  | .error _ => none

/-- The value `get_dcf` returns as `dcf_pv` on the Gordon-terminal path with a
derivable FCF base `f`, written with `Finset.range` sums: the discounted
`n`-year projections plus the discounted Gordon terminal value. -/
def dcfPvValue (f g d tg : ℚ) (n : ℕ) : ℚ :=
  (∑ i in Finset.range n, f * (1 + g) ^ (i + 1) / (1 + d) ^ (i + 1))
    + f * (1 + g) ^ n * (1 + tg) / (d - tg) / (1 + d) ^ n

/-- Whether an `Except` computation returned normally (no exception). -/
def exceptOk {e a : Type} : Except e a → Bool
  | .ok _ => true
  | .error _ => false

/-! ## Helper lemmas -/

theorem listRangeMapSum (f : ℕ → ℚ) (n : ℕ) :
    ((List.range n).map f).sum = ∑ i in Finset.range n, f i := by
  induction n with
  | zero => simp
  | succ m ih =>
    rw [List.range_succ, List.map_append, List.sum_append, Finset.sum_range_succ, ih]
    simp

theorem listRangeMapGetD (f : ℕ → ℚ) (n i : ℕ) (h : i < n) :
    ((List.range n).map f).getD i 0 = f i := by
  rw [List.getD_eq_getElem?_getD, List.getElem?_map, List.getElem?_range h]
  rfl

theorem listRangeMapGetLast (f : ℕ → ℚ) (n : ℕ) (h : 1 ≤ n) :
    ((List.range n).map f).getLast? = some (f (n - 1)) := by
  cases n with
  | zero => omega
  | succ m =>
    rw [List.range_succ, List.map_append]
    simp [List.getLast?_concat]

theorem pvProjsEq (f g d : ℚ) (n : ℕ) :
    ((List.range (((List.range n).map (fun i => f * (1 + g) ^ (i + 1))).length)).map
        (fun i => ((List.range n).map (fun j => f * (1 + g) ^ (j + 1))).getD i 0
          / (1 + d) ^ (i + 1))).sum
      = ∑ i in Finset.range n, f * (1 + g) ^ (i + 1) / (1 + d) ^ (i + 1) := by
  rw [List.length_map, List.length_range, listRangeMapSum]
  refine Finset.sum_congr rfl (fun i hi => ?_)
  rw [listRangeMapGetD _ _ _ (Finset.mem_range.mp hi)]

theorem get_dcf_gordon_pv (st : Stock) (years : ℤ) (g d tg f : ℚ)
    (hf : estimateFcf st = some f) (hd : 0 < d) (htg : tg < d) (hy : 1 ≤ years) :
    dcfPvOf (get_dcf st years g d tg none) = some (dcfPvValue f g d tg years.toNat) := by
  have hn : 1 ≤ years.toNat := by omega
  unfold get_dcf
  rw [hf]
  simp only [if_neg (not_le.mpr hd)]
  unfold dcfTerminalChoice dcfGordonTail
  rw [listRangeMapGetLast _ _ hn, if_neg (not_le.mpr htg)]
  unfold dcfAssemble dcfPvOf
  simp only [pvProjsEq]
  have hyz : ((years.toNat : ℕ) : ℤ) = years := Int.toNat_of_nonneg (by omega)
  have hzp : ((1 : ℚ) + d) ^ years = ((1 : ℚ) + d) ^ (years.toNat : ℕ) := by
    conv_lhs => rw [← hyz]
    rw [zpow_natCast]
  have hsub : years.toNat - 1 + 1 = years.toNat := by omega
  rw [hzp, hsub]
  rfl

theorem dcfPvValue_closed (f g d tg : ℚ) (n : ℕ) (hn : 1 ≤ n)
    (hd : (0 : ℚ) < 1 + d) (htg : tg < d) :
    dcfPvValue f g d tg n
      = (∑ i in Finset.range (n - 1), f * (1 + g) ^ (i + 1) / (1 + d) ^ (i + 1))
        + f * (1 + g) ^ n / ((d - tg) * (1 + d) ^ (n - 1)) := by
  obtain ⟨m, rfl⟩ : ∃ m, n = m + 1 := ⟨n - 1, by omega⟩
  unfold dcfPvValue
  rw [Finset.sum_range_succ]
  have h1 : (1 : ℚ) + d ≠ 0 := ne_of_gt hd
  have h2 : d - tg ≠ 0 := sub_ne_zero.mpr htg.ne'
  simp only [Nat.add_sub_cancel]
  field_simp
  ring

theorem dcfPvValue_strictAnti (f g tg d1 d2 : ℚ) (n : ℕ) (hn : 1 ≤ n)
    (hf : 0 < f) (hg : (0 : ℚ) < 1 + g) (h0 : 0 < d1) (h12 : d1 < d2) (htg : tg < d1) :
    dcfPvValue f g d2 tg n < dcfPvValue f g d1 tg n := by
  have h1d1 : (0 : ℚ) < 1 + d1 := by linarith
  have h1d2 : (0 : ℚ) < 1 + d2 := by linarith
  rw [dcfPvValue_closed f g d1 tg n hn h1d1 htg,
      dcfPvValue_closed f g d2 tg n hn h1d2 (htg.trans h12)]
  have hsum : (∑ i in Finset.range (n - 1), f * (1 + g) ^ (i + 1) / (1 + d2) ^ (i + 1))
      ≤ ∑ i in Finset.range (n - 1), f * (1 + g) ^ (i + 1) / (1 + d1) ^ (i + 1) := by
    refine Finset.sum_le_sum (fun i _ => ?_)
    have hnum : (0 : ℚ) < f * (1 + g) ^ (i + 1) := by positivity
    have hb : (0 : ℚ) < (1 + d1) ^ (i + 1) := by positivity
    have hpow : (1 + d1) ^ (i + 1) ≤ (1 + d2) ^ (i + 1) :=
      pow_le_pow_left₀ h1d1.le (by linarith) _
    exact div_le_div_of_nonneg_left hnum.le hb hpow
  have htail : f * (1 + g) ^ n / ((d2 - tg) * (1 + d2) ^ (n - 1))
      < f * (1 + g) ^ n / ((d1 - tg) * (1 + d1) ^ (n - 1)) := by
    have hnum : (0 : ℚ) < f * (1 + g) ^ n := by positivity
    have hd1tg : (0 : ℚ) < d1 - tg := by linarith
    have hc : (0 : ℚ) < (d1 - tg) * (1 + d1) ^ (n - 1) := by positivity
    have hlt : (d1 - tg) * (1 + d1) ^ (n - 1) < (d2 - tg) * (1 + d2) ^ (n - 1) := by
      calc (d1 - tg) * (1 + d1) ^ (n - 1)
          < (d2 - tg) * (1 + d1) ^ (n - 1) := by
            apply mul_lt_mul_of_pos_right (by linarith) (by positivity)
        _ ≤ (d2 - tg) * (1 + d2) ^ (n - 1) := by
            apply mul_le_mul_of_nonneg_left (pow_le_pow_left₀ h1d1.le (by linarith) _)
              (by linarith)
    exact div_lt_div_of_pos_left hnum hc hlt
  exact add_lt_add_of_le_of_lt hsum htail

theorem dictGet_nil (k : String) : dictGet [] k = none := rfl

theorem dictGet_cons (x : String × RawValue) (d : Dict) (k : String) :
    dictGet (x :: d) k = if x.1 = k then some x.2 else dictGet d k := by
  by_cases h : x.1 = k
  · simp [dictGet, List.find?_cons_of_pos, h]
  · simp [dictGet, List.find?_cons_of_neg, h]

theorem dictGet_mapReplace (d : Dict) (k : String) (v : RawValue)
    (h : d.any (fun kv => kv.1 = k) = true) :
    dictGet (d.map (fun kv => if kv.1 = k then (k, v) else kv)) k = some v := by
  induction d with
  | nil => simp at h
  | cons x rest ih =>
    rw [List.map_cons]
    by_cases hx : x.1 = k
    · rw [if_pos hx, dictGet_cons]
      simp
    · rw [if_neg hx, dictGet_cons, if_neg hx]
      apply ih
      simpa [hx] using h

theorem dictGet_append_single (d : Dict) (k : String) (v : RawValue)
    (h : d.any (fun kv => kv.1 = k) = false) :
    dictGet (d ++ [(k, v)]) k = some v := by
  induction d with
  | nil => simp [dictGet_cons]
  | cons x rest ih =>
    rw [List.cons_append, dictGet_cons]
    simp only [List.any_cons, Bool.or_eq_false_iff, decide_eq_false_iff_not] at h
    rw [if_neg h.1]
    exact ih h.2

theorem dictGet_dictInsert_self (d : Dict) (k : String) (v : RawValue) :
    dictGet (dictInsert d k v) k = some v := by
  unfold dictInsert
  by_cases h : d.any (fun kv => kv.1 = k) = true
  · rw [if_pos h]
    exact dictGet_mapReplace d k v h
  · rw [if_neg h]
    exact dictGet_append_single d k v (Bool.eq_false_iff.mpr h)

theorem dictGet_mapReplace_ne (d : Dict) (k k' : String) (v : RawValue) (hne : k' ≠ k) :
    dictGet (d.map (fun kv => if kv.1 = k then (k, v) else kv)) k' = dictGet d k' := by
  induction d with
  | nil => rfl
  | cons x rest ih =>
    obtain ⟨a, b⟩ := x
    rw [List.map_cons]
    by_cases hx : a = k
    · subst hx
      rw [if_pos rfl, dictGet_cons, dictGet_cons]
      rw [if_neg (Ne.symm hne), if_neg (Ne.symm hne)]
      exact ih
    · rw [if_neg hx, dictGet_cons, dictGet_cons]
      by_cases hx' : a = k'
      · rw [if_pos hx', if_pos hx']
      · rw [if_neg hx', if_neg hx']
        exact ih

theorem dictGet_append_single_ne (d : Dict) (k k' : String) (v : RawValue) (hne : k' ≠ k) :
    dictGet (d ++ [(k, v)]) k' = dictGet d k' := by
  induction d with
  | nil =>
    rw [List.nil_append, dictGet_cons, if_neg (Ne.symm hne)]
  | cons x rest ih =>
    rw [List.cons_append, dictGet_cons, dictGet_cons]
    by_cases hx : x.1 = k'
    · rw [if_pos hx, if_pos hx]
    · rw [if_neg hx, if_neg hx]
      exact ih

theorem dictGet_dictInsert_ne (d : Dict) (k k' : String) (v : RawValue) (hne : k' ≠ k) :
    dictGet (dictInsert d k v) k' = dictGet d k' := by
  unfold dictInsert
  by_cases h : d.any (fun kv => kv.1 = k) = true
  · rw [if_pos h]
    exact dictGet_mapReplace_ne d k k' v hne
  · rw [if_neg h]
    exact dictGet_append_single_ne d k k' v hne

theorem strAppend_left_cancel {pre a b : String} (h : pre ++ a = pre ++ b) : a = b := by
  apply String.ext
  have hd : (pre ++ a).data = (pre ++ b).data := by rw [h]
  rw [String.data_append, String.data_append] at hd
  exact List.append_cancel_left hd

theorem mergeFold_get_notin (pre : String) (l : Dict) (k0 : String) :
    ∀ d : Dict, (∀ kv ∈ l, pre ++ kv.1 ≠ k0) →
      dictGet (l.foldl (fun acc kv => dictInsert acc (pre ++ kv.1) kv.2) d) k0
        = dictGet d k0 := by
  induction l with
  | nil => intro d _; rfl
  | cons x rest ih =>
    intro d hall
    rw [List.foldl_cons]
    rw [ih _ (fun kv hkv => hall kv (List.mem_cons_of_mem _ hkv))]
    exact dictGet_dictInsert_ne _ _ _ _
      (fun he => hall x (List.mem_cons_self _ _) he.symm)

theorem mergeFold_get_in (pre : String) (l : Dict) (k : String) :
    ∀ d : Dict, (l.map Prod.fst).Nodup → (dictGet l k).isSome →
      dictGet (l.foldl (fun acc kv => dictInsert acc (pre ++ kv.1) kv.2) d) (pre ++ k)
        = dictGet l k := by
  induction l with
  | nil =>
    intro d _ hs
    simp [dictGet] at hs
  | cons x rest ih =>
    intro d hnd hs
    rw [List.foldl_cons, dictGet_cons]
    have hnd' : (rest.map Prod.fst).Nodup := (List.nodup_cons.mp (by simpa using hnd)).2
    by_cases hx : x.1 = k
    · rw [if_pos hx]
      have hnotin : ∀ kv ∈ rest, pre ++ kv.1 ≠ pre ++ k := by
        intro kv hkv he
        have hk : kv.1 = k := strAppend_left_cancel he
        have hxmem : x.1 ∉ rest.map Prod.fst := (List.nodup_cons.mp (by simpa using hnd)).1
        exact hxmem (hx ▸ hk ▸ List.mem_map_of_mem Prod.fst hkv)
      rw [mergeFold_get_notin pre rest (pre ++ k) _ hnotin]
      rw [← hx]
      exact dictGet_dictInsert_self _ _ _
    · rw [if_neg hx]
      apply ih _ hnd'
      rw [dictGet_cons, if_neg hx] at hs
      exact hs

theorem exceptOk_exists {e a : Type} (r : Except e a) (h : exceptOk r = true) :
    ∃ x, r = .ok x := by
  cases r with
  | ok x => exact ⟨x, rfl⟩
  | error _ => simp [exceptOk] at h

theorem dcfTerminalChoice_isOk (st : Stock) (years : ℤ) (d tg f pv lastv : ℚ)
    (tm : Option ℚ) :
    exceptOk (dcfTerminalChoice st years d tg f pv (some lastv) tm) = true := by
  cases tm with
  | none =>
    simp only [dcfTerminalChoice, dcfGordonTail]
    by_cases h : d ≤ tg
    · rw [if_pos h]
      rfl
    · rw [if_neg h]
      rfl
  | some t =>
    simp only [dcfTerminalChoice, dcfGordonTail]
    by_cases ht : t ≠ 0
    · rw [if_pos ht]
      rfl
    · rw [if_neg ht]
      by_cases h : d ≤ tg
      · rw [if_pos h]
        rfl
      · rw [if_neg h]
        rfl

theorem get_dcf_isOk (st : Stock) (years : ℤ) (g d tg : ℚ) (tm : Option ℚ)
    (hy : 1 ≤ years) :
    exceptOk (get_dcf st years g d tg tm) = true := by
  unfold get_dcf
  cases hf : estimateFcf st with
  | none => rfl
  | some f =>
    dsimp only
    by_cases hd : d ≤ 0
    · rw [if_pos hd]
      rfl
    · simp only [if_neg hd]
      rw [listRangeMapGetLast _ _ (by omega : 1 ≤ years.toNat)]
      exact dcfTerminalChoice_isOk st years d tg f _ _ tm

theorem fillDerived_price (st : Stock) :
    (fillDerived st).price
      = (match st.price with
        | .null => (match extractPrice st.norm with | some p => .num p | none => .null)
        | v => v) := rfl

theorem stockInit_price (t : RawValue) (m : Dict) (pa : RawValue) :
    (stockInit t m pa).price
      = (match pa with
        | .null => (match extractPrice (normalizeKeys m) with | some p => .num p | none => .null)
        | v => v) := by
  unfold stockInit
  rw [fillDerived_price]
  cases pa with
  | null => cases extractPrice (normalizeKeys m) <;> rfl
  | num q => rfl
  | str s => rfl

theorem stockFromMetrics_price_shape (m : Dict) (s : String) :
    (stockFromMetrics m).price ≠ .str s := by
  unfold stockFromMetrics
  rw [stockInit_price]
  cases extractPrice (normalizeKeys m) <;> simp

theorem gordon_isOk (st : Stock) (rr g : ℚ) (hp : ∀ s, st.price ≠ .str s) :
    exceptOk (get_growth_dividend_valuation st rr g) = true := by
  have hyc : exceptOk (gordonYieldCase st rr g) = true := by
    unfold gordonYieldCase
    cases hdy : st.dividend_yield with
    | none => rfl
    | some y =>
      dsimp only
      by_cases hc : y ≠ 0 ∧ rawTruthy st.price
      · rw [if_pos hc]
        cases hpv : st.price with
        | num p => rfl
        | str s => exact absurd hpv (hp s)
        | null =>
          rw [hpv] at hc
          exact absurd hc.2 (by simp [rawTruthy])
      · rw [if_neg hc]
        rfl
  unfold get_growth_dividend_valuation
  cases st.dividend_rate with
  | none => exact hyc
  | some dr =>
    dsimp only
    by_cases hdr : dr ≠ 0
    · rw [if_pos hdr]
      rfl
    · rw [if_neg hdr]
      exact hyc

theorem summary_isOk (st : Stock) (hp : ∀ s, st.price ≠ .str s) :
    exceptOk (summary st) = true := by
  unfold summary
  obtain ⟨d, hd⟩ := exceptOk_exists _
    (get_dcf_isOk st 5 (3 / 100) (1 / 10) (1 / 50) none (by norm_num))
  rw [hd]
  dsimp only
  obtain ⟨g, hg⟩ := exceptOk_exists _ (gordon_isOk st (1 / 10) (1 / 50) hp)
  rw [hg]
  rfl

/-! ## Claim theorems -/

set_option maxRecDepth 1000000

/-- Claim C1, counterexample: the no-exception property fails for `years = 0`.
With a derivable FCF estimate (net income 100) and the default rates,
`get_dcf` with `years = 0` builds an empty projection list and then raises an
uncaught IndexError at `fcf_projs[-1]` (modelled `.error ()`). -/
theorem C1_no_raise_counterexample :
    get_dcf (stockFromMetrics [("net_income_ttm", .num 100)]) 0
        (3 / 100) (1 / 10) (1 / 50) none
      = .error () := by
  with_unfolding_all decide

/-- Claim C1, amended: for every raw metrics mapping and every choice of
method parameters with `years ≥ 1`, no operation on the valuation path raises:
`get_dcf`, `get_growth_dividend_valuation` and `summary` on the constructed
Valuation all return normally (degrading to `None` fields internally), and
the `get_value` entry point returns `None` on a non-mapping input. (With
`years ≤ 0`, `get_dcf` raises IndexError, as the counterexample shows; the
dashboard restricts the years widget to `start=1`.) -/
theorem C1_no_raise_amended (metrics : Dict) (years : ℤ)
    (growth discount terminal_growth rr gg : ℚ) (tm : Option ℚ) (method : Method)
    (hy : 1 ≤ years) :
    exceptOk (get_dcf (stockFromMetrics metrics) years growth discount terminal_growth tm)
        = true ∧
    exceptOk (get_growth_dividend_valuation (stockFromMetrics metrics) rr gg) = true ∧
    exceptOk (summary (stockFromMetrics metrics)) = true ∧
    get_value .notMapping method = none := by
  exact ⟨get_dcf_isOk _ _ _ _ _ _ hy,
    gordon_isOk _ _ _ (fun s => stockFromMetrics_price_shape metrics s),
    summary_isOk _ (fun s => stockFromMetrics_price_shape metrics s), rfl⟩

/-- Witness for the amended C1 at a concrete metrics record and `years = 1`. -/
theorem C1_no_raise_witness :
    exceptOk (get_dcf (stockFromMetrics [("net_income_ttm", .num 100)]) 1
        (3 / 100) (1 / 10) (1 / 50) none) = true ∧
    exceptOk (get_growth_dividend_valuation (stockFromMetrics [("net_income_ttm", .num 100)])
        (1 / 10) (1 / 50)) = true ∧
    exceptOk (summary (stockFromMetrics [("net_income_ttm", .num 100)])) = true ∧
    get_value .notMapping .summaryM = none :=
  C1_no_raise_amended [("net_income_ttm", .num 100)] 1 (3 / 100) (1 / 10) (1 / 50)
    (1 / 10) (1 / 50) none .summaryM (by norm_num)

/-- Claim C2: the stated parses hold for "$1,234.50", "(500)", "12.5%", "n/a",
and the k/m suffixes including the lowercase "2.3b"; but the stated
"2.3B" → 2300000000.0 fails: the suffix regex class is literally `[kmbKMb]`
(uppercase `B` missing, the final `b` a duplicate), so "2.3B" falls through to
`float("2.3B")`, which raises, and the parse returns None — contradicting the
code's own "handle K/M/B suffixes" comment. -/
theorem C2_parse_number_cases :
    parseNumber (.str "$1,234.50") = some (2469 / 2) ∧
    parseNumber (.str "(500)") = some (-500) ∧
    parseNumber (.str "12.5%") = some (1 / 8) ∧
    parseNumber (.str "n/a") = none ∧
    parseNumber (.str "2.3k") = some 2300 ∧
    parseNumber (.str "2.3K") = some 2300 ∧
    parseNumber (.str "2.3M") = some 2300000 ∧
    parseNumber (.str "2.3b") = some 2300000000 ∧
    parseNumber (.str "2.3B") = none := by
  refine ⟨?_, ?_, ?_, ?_, ?_, ?_, ?_, ?_, ?_⟩
  · have ht : "$1,234.50".toList = ['$', '1', ',', '2', '3', '4', '.', '5', '0'] := rfl
    unfold parseNumber
    dsimp only
    rw [ht]
    simp [stripWs, pyFloat, pyFloatCore, parseExpPart, digitsVal, removeChs,
      matchSuffixRe, bodyClass, suffixClass, isDigitCh]
    norm_num
  · with_unfolding_all decide
  · with_unfolding_all decide
  · with_unfolding_all decide
  · have ht : "2.3k".toList = ['2', '.', '3', 'k'] := rfl
    unfold parseNumber
    dsimp only
    rw [ht]
    simp [stripWs, pyFloat, pyFloatCore, parseExpPart, digitsVal, removeChs,
      matchSuffixRe, bodyClass, suffixClass, isDigitCh]
    norm_num
  · have ht : "2.3K".toList = ['2', '.', '3', 'K'] := rfl
    unfold parseNumber
    dsimp only
    rw [ht]
    simp [stripWs, pyFloat, pyFloatCore, parseExpPart, digitsVal, removeChs,
      matchSuffixRe, bodyClass, suffixClass, isDigitCh]
    norm_num
  · have ht : "2.3M".toList = ['2', '.', '3', 'M'] := rfl
    unfold parseNumber
    dsimp only
    rw [ht]
    simp [stripWs, pyFloat, pyFloatCore, parseExpPart, digitsVal, removeChs,
      matchSuffixRe, bodyClass, suffixClass, isDigitCh]
    norm_num
  · have ht : "2.3b".toList = ['2', '.', '3', 'b'] := rfl
    unfold parseNumber
    dsimp only
    rw [ht]
    simp [stripWs, pyFloat, pyFloatCore, parseExpPart, digitsVal, removeChs,
      matchSuffixRe, bodyClass, suffixClass, isDigitCh]
    norm_num
  · with_unfolding_all decide

/-- Claim C3, counterexample: in the `discount ≤ 0` bail-out the code returns
`fcf_ttm_estimate = None` even though the FCF base estimate (100) is
derivable, contradicting "fcf_ttm_estimate is still set to the FCF base
estimate whenever that estimate is derivable". -/
theorem C3_bailout_counterexample :
    estimateFcf (stockFromMetrics [("net_income_ttm", .num 100)]) = some 100 ∧
    get_dcf (stockFromMetrics [("net_income_ttm", .num 100)]) 5 (3 / 100) 0 (1 / 50) none
      = .ok { dcf_pv := none, equity_value := none, intrinsic_price := none,
              fcf_ttm_estimate := none } := by
  with_unfolding_all decide

/-- Claim C3, amended: when the FCF base estimate is `None`, or when
`discount ≤ 0`, `get_dcf` returns all four fields `None` (including
`fcf_ttm_estimate`, even when the estimate is derivable); only in the
`discount ≤ terminal_growth` bail-out with no terminal multiple are the three
valuation fields `None` while `fcf_ttm_estimate` carries the estimate. -/
theorem C3_bailout_amended (st : Stock) (years : ℤ)
    (growth discount terminal_growth : ℚ) (tm : Option ℚ) (f : ℚ) :
    (estimateFcf st = none →
      get_dcf st years growth discount terminal_growth tm
        = .ok { dcf_pv := none, equity_value := none, intrinsic_price := none,
                fcf_ttm_estimate := none }) ∧
    (estimateFcf st = some f → discount ≤ 0 →
      get_dcf st years growth discount terminal_growth tm
        = .ok { dcf_pv := none, equity_value := none, intrinsic_price := none,
                fcf_ttm_estimate := none }) ∧
    (estimateFcf st = some f → 0 < discount → discount ≤ terminal_growth →
      get_dcf st years growth discount terminal_growth none
        = .ok { dcf_pv := none, equity_value := none, intrinsic_price := none,
                fcf_ttm_estimate := some f }) := by
  refine ⟨?_, ?_, ?_⟩
  · intro hf
    unfold get_dcf
    rw [hf]
  · intro hf hle
    unfold get_dcf
    rw [hf]
    dsimp only
    rw [if_pos hle]
  · intro hf hpos hle
    unfold get_dcf
    rw [hf]
    simp only [if_neg (not_le.mpr hpos)]
    simp only [dcfTerminalChoice, dcfGordonTail, if_pos hle]

/-- Witness for the amended C3: both bail-outs evaluated at a concrete state
with derivable estimate 100. -/
theorem C3_bailout_witness :
    get_dcf (stockFromMetrics [("net_income_ttm", .num 100)]) 5 (3 / 100) 0 (1 / 50) none
      = .ok { dcf_pv := none, equity_value := none, intrinsic_price := none,
              fcf_ttm_estimate := none } ∧
    get_dcf (stockFromMetrics [("net_income_ttm", .num 100)]) 5 (3 / 100) (1 / 100) (1 / 10)
        none
      = .ok { dcf_pv := none, equity_value := none, intrinsic_price := none,
              fcf_ttm_estimate := some 100 } :=
  ⟨(C3_bailout_amended (stockFromMetrics [("net_income_ttm", .num 100)]) 5 (3 / 100) 0
      (1 / 50) none 100).2.1 (by with_unfolding_all decide) (by norm_num),
   (C3_bailout_amended (stockFromMetrics [("net_income_ttm", .num 100)]) 5 (3 / 100)
      (1 / 100) (1 / 10) none 100).2.2 (by with_unfolding_all decide) (by norm_num)
      (by norm_num)⟩

theorem fillDerived_ebit (st : Stock) : (fillDerived st).ebit_ttm = st.ebit_ttm := rfl

theorem stockFromMetrics_ebit (m : Dict) :
    (stockFromMetrics m).ebit_ttm
      = pyOrQ (getNumber (normalizeKeys m) "ebit_ttm")
          (getNumber (normalizeKeys m) "operating_income_ttm") := rfl

theorem stockFromMetrics_tax (m : Dict) :
    (stockFromMetrics m).tax_rate
      = (match pyOrQ (getNumber (normalizeKeys m) "tax_rate_ttm")
            (inferTaxRate (normalizeKeys m)) with
        | none => inferTaxRate (normalizeKeys m)
        | t => t) := rfl

/-- Claim C4, counterexample: the ebit alias chain is combined with Python
`or`, so a highest-priority alias that parses to 0.0 falls through to the
later alias (here resolving to 42, not 0); and the underscore-stripped retry
also fires when the key is present with a null value (here `p_b` stored as
null resolves to 5 via the de-underscored match `pb`), not only when the key
is absent. -/
theorem C4_field_resolution_counterexample :
    (stockFromMetrics [("ebit_ttm", .num 0), ("operating_income_ttm", .num 42)]).ebit_ttm
      = some 42 ∧
    getNumber (normalizeKeys [("pb", .num 5), ("p_b", .null)]) "p_b" = some 5 := by
  with_unfolding_all decide

/-- Claim C4, amended: a direct lookup that finds a non-null value is used
as-is (no underscore-stripped retry, even if it fails to parse); the retry
fires exactly when the lookup yields no value (key absent or value null); and
every aliased chain returns the first truthy (non-null and nonzero) parsed
hit, a 0.0 hit falling through to the next alias — shown for the
ebit/operating-income chain and the tax-rate/inferred-rate chain. -/
theorem C4_field_resolution_amended (norm m : Dict) (k : String) (v : RawValue) (q : ℚ) :
    (k ≠ "" → pyLower k = k → dictGet norm k = some v → v ≠ .null →
      getNumber norm k = parseNumber v) ∧
    (getNumber (normalizeKeys m) "ebit_ttm" = some q → q ≠ 0 →
      (stockFromMetrics m).ebit_ttm = some q) ∧
    ((getNumber (normalizeKeys m) "ebit_ttm" = none ∨
        getNumber (normalizeKeys m) "ebit_ttm" = some 0) →
      (stockFromMetrics m).ebit_ttm
        = getNumber (normalizeKeys m) "operating_income_ttm") ∧
    (getNumber (normalizeKeys m) "tax_rate_ttm" = some q → q ≠ 0 →
      (stockFromMetrics m).tax_rate = some q) ∧
    ((getNumber (normalizeKeys m) "tax_rate_ttm" = none ∨
        getNumber (normalizeKeys m) "tax_rate_ttm" = some 0) →
      (stockFromMetrics m).tax_rate = inferTaxRate (normalizeKeys m)) := by
  refine ⟨?_, ?_, ?_, ?_, ?_⟩
  · intro h1 h2 h3 h4
    unfold getNumber
    rw [if_neg h1]
    dsimp only
    rw [h2, h3]
    cases v with
    | num q2 => rfl
    | str s2 => rfl
    | null => exact absurd rfl h4
  · intro hq hne
    rw [stockFromMetrics_ebit, hq]
    simp [pyOrQ, hne]
  · intro h
    rw [stockFromMetrics_ebit]
    rcases h with h | h <;> rw [h] <;> simp [pyOrQ]
  · intro hq hne
    rw [stockFromMetrics_tax, hq]
    simp [pyOrQ, hne]
  · intro h
    rw [stockFromMetrics_tax]
    have hpy : pyOrQ (getNumber (normalizeKeys m) "tax_rate_ttm")
        (inferTaxRate (normalizeKeys m)) = inferTaxRate (normalizeKeys m) := by
      rcases h with h | h <;> rw [h] <;> simp [pyOrQ]
    rw [hpy]
    cases hi : inferTaxRate (normalizeKeys m) <;> rfl

/-- Witness for the amended C4 at concrete records. -/
theorem C4_field_resolution_witness :
    getNumber [("pb", .num 7)] "pb" = parseNumber (.num 7) ∧
    (stockFromMetrics [("ebit_ttm", .num 7)]).ebit_ttm = some 7 ∧
    (stockFromMetrics [("ebit_ttm", .num 0), ("operating_income_ttm", .num 42)]).ebit_ttm
      = getNumber (normalizeKeys [("ebit_ttm", .num 0), ("operating_income_ttm", .num 42)])
          "operating_income_ttm" ∧
    (stockFromMetrics [("tax_rate_ttm", .num (1 / 5))]).tax_rate = some (1 / 5) ∧
    (stockFromMetrics [("tax_rate_ttm", .num 0)]).tax_rate
      = inferTaxRate (normalizeKeys [("tax_rate_ttm", .num 0)]) :=
  ⟨(C4_field_resolution_amended [("pb", .num 7)] [] "pb" (.num 7) 0).1
      (by with_unfolding_all decide) (by with_unfolding_all decide)
      (by with_unfolding_all decide) (by with_unfolding_all decide),
   (C4_field_resolution_amended [] [("ebit_ttm", .num 7)] "" .null 7).2.1
      (by with_unfolding_all decide) (by norm_num),
   (C4_field_resolution_amended []
       [("ebit_ttm", .num 0), ("operating_income_ttm", .num 42)] "" .null 0).2.2.1
      (Or.inr (by with_unfolding_all decide)),
   (C4_field_resolution_amended [] [("tax_rate_ttm", .num (1 / 5))] "" .null (1 / 5)).2.2.2.1
      (by with_unfolding_all decide) (by norm_num),
   (C4_field_resolution_amended [] [("tax_rate_ttm", .num 0)] "" .null 0).2.2.2.2
      (Or.inr (by with_unfolding_all decide))⟩

/-- Claim C5: at metrics {market_cap: 100, total_debt: 300} the code computes
Debt/Equity = 300/(100−300) = −1.5 although total debt exceeds market cap —
the claim (and the source's own comment "approximate equity = market_cap -
total_debt (if total_debt smaller); else None") require None there. The only
guard actually present is a nonzero denominator, as the second conjunct
(equal market cap and debt giving None) shows. -/
theorem C5_debt_equity_sign :
    (get_relative_value (stockFromMetrics
        [("market_cap", .num 100), ("total_debt", .num 300)])).debt_equity
      = some (-(3 / 2)) ∧
    (get_relative_value (stockFromMetrics
        [("market_cap", .num 100), ("total_debt", .num 100)])).debt_equity
      = none := by
  with_unfolding_all decide

/-- Claim C6, counterexample: with a derivable but negative FCF estimate
(net income −100), growth 0, terminal growth 0 and years 1, raising the
discount from 1 to 3 raises `dcf_pv` from −100 to −100/3, so `dcf_pv` is not
strictly decreasing in the discount as claimed. -/
theorem C6_dcf_monotonicity_counterexample :
    get_dcf (stockFromMetrics [("net_income_ttm", .num (-100))]) 1 0 1 0 none
      = .ok { dcf_pv := some (-100), equity_value := some (-100),
              intrinsic_price := none, fcf_ttm_estimate := some (-100) } ∧
    get_dcf (stockFromMetrics [("net_income_ttm", .num (-100))]) 1 0 3 0 none
      = .ok { dcf_pv := some (-100 / 3), equity_value := some (-100 / 3),
              intrinsic_price := none, fcf_ttm_estimate := some (-100) } ∧
    ¬ ((-100 / 3 : ℚ) < -100) := by
  refine ⟨?_, ?_, by norm_num⟩
  · with_unfolding_all decide
  · with_unfolding_all decide

/-- Claim C6, amended: for every Valuation state whose derivable FCF base
estimate is positive, with `years ≥ 1`, projection growth above −1 and no
terminal multiple, `dcf_pv` is strictly decreasing in the discount on the
region `max(0, terminal_growth) < d`: for `0 < d1 < d2` with
`terminal_growth < d1` the value returned at `d2` is strictly below the one
returned at `d1` (both being the stated projection-plus-terminal sum). -/
theorem C6_dcf_monotonicity_amended (st : Stock) (years : ℤ) (g tg d1 d2 f : ℚ)
    (hf : estimateFcf st = some f) (hfpos : 0 < f) (hg : -1 < g) (hy : 1 ≤ years)
    (h0 : 0 < d1) (h12 : d1 < d2) (htg : tg < d1) :
    dcfPvOf (get_dcf st years g d1 tg none) = some (dcfPvValue f g d1 tg years.toNat) ∧
    dcfPvOf (get_dcf st years g d2 tg none) = some (dcfPvValue f g d2 tg years.toNat) ∧
    dcfPvValue f g d2 tg years.toNat < dcfPvValue f g d1 tg years.toNat :=
  ⟨get_dcf_gordon_pv st years g d1 tg f hf h0 htg hy,
   get_dcf_gordon_pv st years g d2 tg f hf (h0.trans h12) (htg.trans h12) hy,
   dcfPvValue_strictAnti f g tg d1 d2 years.toNat (by omega) hfpos (by linarith) h0 h12 htg⟩

/-- Witness for the amended C6 at net income 100, years 1, growth 0,
terminal growth 0, discounts 1 and 3. -/
theorem C6_dcf_monotonicity_witness :
    dcfPvOf (get_dcf (stockFromMetrics [("net_income_ttm", .num 100)]) 1 0 1 0 none)
      = some (dcfPvValue 100 0 1 0 (1 : ℤ).toNat) ∧
    dcfPvOf (get_dcf (stockFromMetrics [("net_income_ttm", .num 100)]) 1 0 3 0 none)
      = some (dcfPvValue 100 0 3 0 (1 : ℤ).toNat) ∧
    dcfPvValue 100 0 3 0 (1 : ℤ).toNat < dcfPvValue 100 0 1 0 (1 : ℤ).toNat :=
  C6_dcf_monotonicity_amended (stockFromMetrics [("net_income_ttm", .num 100)]) 1 0 0 1 3 100
    (by with_unfolding_all decide) (by norm_num) (by norm_num) (by norm_num)
    (by norm_num) (by norm_num) (by norm_num)

/-- Claim C7, counterexample: the dividend-rate field can be present and
equal to 0.0 (raw key "dividend" parsing to 0), yet the Gordon valuation
does not use it: Python truthiness sends it to the yield × price branch,
returning dividend_annual = 0.05·100 = 5 and gordon_value = 5·1.02/0.08 =
63.75, where the claim (rate "present" ⇒ d = 0) demands d = 0 and
gordon_value = 0. -/
theorem C7_gordon_counterexample :
    (stockFromMetrics [("dividend", .num 0), ("dividend_yield", .num (1 / 20)),
        ("price", .num 100)]).dividend_rate = some 0 ∧
    get_growth_dividend_valuation
        (stockFromMetrics [("dividend", .num 0), ("dividend_yield", .num (1 / 20)),
          ("price", .num 100)]) (1 / 10) (1 / 50)
      = .ok { gordon_value := some (255 / 4), dividend_annual := some 5 } := by
  refine ⟨?_, ?_⟩
  · with_unfolding_all decide
  · with_unfolding_all decide

/-- Claim C7, amended: the annual dividend `d` is the dividend-rate field
when that field is truthy (present and nonzero); else dividend yield × price
when both are truthy; else both result fields are None. With `d` determined,
`required_return ≤ growth` yields a None gordon_value with dividend_annual
preserved, and otherwise gordon_value = d·(1+growth)/(required_return −
growth). -/
theorem C7_gordon_amended (st : Stock) (rr g dr y p : ℚ) :
    (st.dividend_rate = some dr → dr ≠ 0 → g < rr →
      get_growth_dividend_valuation st rr g
        = .ok { gordon_value := some (dr * (1 + g) / (rr - g)),
                dividend_annual := some dr }) ∧
    (st.dividend_rate = some dr → dr ≠ 0 → rr ≤ g →
      get_growth_dividend_valuation st rr g
        = .ok { gordon_value := none, dividend_annual := some dr }) ∧
    ((st.dividend_rate = none ∨ st.dividend_rate = some 0) →
      st.dividend_yield = some y → y ≠ 0 → st.price = .num p → p ≠ 0 → g < rr →
      get_growth_dividend_valuation st rr g
        = .ok { gordon_value := some (y * p * (1 + g) / (rr - g)),
                dividend_annual := some (y * p) }) ∧
    ((st.dividend_rate = none ∨ st.dividend_rate = some 0) →
      st.dividend_yield = some y → y ≠ 0 → st.price = .num p → p ≠ 0 → rr ≤ g →
      get_growth_dividend_valuation st rr g
        = .ok { gordon_value := none, dividend_annual := some (y * p) }) ∧
    ((st.dividend_rate = none ∨ st.dividend_rate = some 0) →
      (st.dividend_yield = none ∨ st.dividend_yield = some 0) →
      get_growth_dividend_valuation st rr g
        = .ok { gordon_value := none, dividend_annual := none }) := by
  have hrate : (st.dividend_rate = none ∨ st.dividend_rate = some 0) →
      get_growth_dividend_valuation st rr g = gordonYieldCase st rr g := by
    intro h
    unfold get_growth_dividend_valuation
    rcases h with h | h <;> (rw [h]; try simp)
  have hyieldPos : st.dividend_yield = some y → y ≠ 0 → st.price = .num p → p ≠ 0 →
      gordonYieldCase st rr g = .ok (gordonFrom (y * p) rr g) := by
    intro h1 h2 h3 h4
    unfold gordonYieldCase
    rw [h1]
    dsimp only
    rw [if_pos ⟨h2, by rw [h3]; simp [rawTruthy, h4]⟩, h3]
  refine ⟨?_, ?_, ?_, ?_, ?_⟩
  · intro h1 h2 h3
    unfold get_growth_dividend_valuation
    rw [h1]
    dsimp only
    rw [if_pos h2]
    simp [gordonFrom, if_neg (not_le.mpr h3)]
  · intro h1 h2 h3
    unfold get_growth_dividend_valuation
    rw [h1]
    dsimp only
    rw [if_pos h2]
    simp [gordonFrom, if_pos h3]
  · intro h0 h1 h2 h3 h4 h5
    rw [hrate h0, hyieldPos h1 h2 h3 h4]
    simp [gordonFrom, if_neg (not_le.mpr h5)]
  · intro h0 h1 h2 h3 h4 h5
    rw [hrate h0, hyieldPos h1 h2 h3 h4]
    simp [gordonFrom, if_pos h5]
  · intro h0 h1
    rw [hrate h0]
    unfold gordonYieldCase
    rcases h1 with h | h <;> (rw [h]; try simp)

/-- Witness for the amended C7 at explicit Valuation states. -/
theorem C7_gordon_witness :
    get_growth_dividend_valuation
        { ticker := .str "", norm := [], price := .null, shares := none,
          market_cap := none, enterprise_value := none, revenue_ttm := none,
          ebit_ttm := none, net_income_ttm := none, total_debt := none,
          total_cash := none, capex_ttm := none, depr_ttm := none,
          change_wc := none, tax_rate := none, price_to_book := none, pe := none,
          ps := none, dividend_rate := some 4, dividend_yield := none }
        (1 / 10) (1 / 50)
      = .ok { gordon_value := some (4 * (1 + 1 / 50) / (1 / 10 - 1 / 50)),
              dividend_annual := some 4 } ∧
    get_growth_dividend_valuation
        { ticker := .str "", norm := [], price := .num 100, shares := none,
          market_cap := none, enterprise_value := none, revenue_ttm := none,
          ebit_ttm := none, net_income_ttm := none, total_debt := none,
          total_cash := none, capex_ttm := none, depr_ttm := none,
          change_wc := none, tax_rate := none, price_to_book := none, pe := none,
          ps := none, dividend_rate := some 0, dividend_yield := some (1 / 20) }
        (1 / 10) (1 / 50)
      = .ok { gordon_value := some (1 / 20 * 100 * (1 + 1 / 50) / (1 / 10 - 1 / 50)),
              dividend_annual := some (1 / 20 * 100) } ∧
    get_growth_dividend_valuation
        { ticker := .str "", norm := [], price := .num 100, shares := none,
          market_cap := none, enterprise_value := none, revenue_ttm := none,
          ebit_ttm := none, net_income_ttm := none, total_debt := none,
          total_cash := none, capex_ttm := none, depr_ttm := none,
          change_wc := none, tax_rate := none, price_to_book := none, pe := none,
          ps := none, dividend_rate := none, dividend_yield := none }
        (1 / 10) (1 / 50)
      = .ok { gordon_value := none, dividend_annual := none } :=
  ⟨(C7_gordon_amended _ (1 / 10) (1 / 50) 4 0 0).1 rfl (by norm_num) (by norm_num),
   (C7_gordon_amended _ (1 / 10) (1 / 50) 0 (1 / 20) 100).2.2.1 (Or.inr rfl) rfl
      (by norm_num) rfl (by norm_num) (by norm_num),
   (C7_gordon_amended _ (1 / 10) (1 / 50) 0 0 0).2.2.2.2 (Or.inl rfl) (Or.inl rfl)⟩

/-- Claim C8: in the derivation pass a missing market cap is filled as
shares × price when both are present (shares untouched), a still-missing
shares is filled as market_cap ÷ price when both are present and price ≠ 0
(market cap untouched), the stated concrete derivations hold
(100 shares at price 10 give market cap 1000.0; market cap 1000 at price 10
gives 100.0 shares), and composing the two directions from a consistent
(shares, price, market cap) triple returns the original shares — no
contradiction. -/
theorem C8_derivation_round_trip (st : Stock) (s p m : ℚ) :
    (st.market_cap = none → st.shares = some s → st.price = .num p →
      (fillDerived st).market_cap = some (s * p) ∧ (fillDerived st).shares = some s) ∧
    (st.shares = none → st.market_cap = some m → st.price = .num p → p ≠ 0 →
      (fillDerived st).shares = some (m / p) ∧ (fillDerived st).market_cap = some m) ∧
    (st.shares = none → st.market_cap = some (s * p) → st.price = .num p → p ≠ 0 →
      (fillDerived st).shares = some s) ∧
    ((stockFromMetrics [("shares_outstanding", .num 100), ("price", .num 10)]).market_cap
        = some 1000 ∧
      (stockFromMetrics [("shares_outstanding", .num 100), ("price", .num 10)]).shares
        = some 100) ∧
    ((stockFromMetrics [("market_cap", .num 1000), ("price", .num 10)]).shares
        = some 100 ∧
      (stockFromMetrics [("market_cap", .num 1000), ("price", .num 10)]).market_cap
        = some 1000) := by
  refine ⟨?_, ?_, ?_, ?_, ?_⟩
  · intro h1 h2 h3
    constructor <;> simp [fillDerived, h1, h2, h3, pyFloatVal]
  · intro h1 h2 h3 hp
    constructor <;> simp [fillDerived, h1, h2, h3, hp, pyFloatVal, pyNeZero]
  · intro h1 h2 h3 hp
    simp [fillDerived, h1, h2, h3, hp, pyFloatVal, pyNeZero,
      mul_div_cancel_right₀ s hp]
  · refine ⟨?_, ?_⟩ <;> with_unfolding_all decide
  · refine ⟨?_, ?_⟩ <;> with_unfolding_all decide

/-- Witness for the C8 derivation rules at explicit pre-derivation states. -/
theorem C8_derivation_witness :
    (fillDerived
        { ticker := .str "", norm := [], price := .num 10, shares := some 100,
          market_cap := none, enterprise_value := none, revenue_ttm := none,
          ebit_ttm := none, net_income_ttm := none, total_debt := none,
          total_cash := none, capex_ttm := none, depr_ttm := none,
          change_wc := none, tax_rate := none, price_to_book := none, pe := none,
          ps := none, dividend_rate := none, dividend_yield := none }).market_cap
      = some (100 * 10) ∧
    (fillDerived
        { ticker := .str "", norm := [], price := .num 10, shares := none,
          market_cap := some 1000, enterprise_value := none, revenue_ttm := none,
          ebit_ttm := none, net_income_ttm := none, total_debt := none,
          total_cash := none, capex_ttm := none, depr_ttm := none,
          change_wc := none, tax_rate := none, price_to_book := none, pe := none,
          ps := none, dividend_rate := none, dividend_yield := none }).shares
      = some (1000 / 10) :=
  ⟨((C8_derivation_round_trip _ 100 10 0).1 rfl rfl rfl).1,
   ((C8_derivation_round_trip _ 0 10 1000).2.1 rfl rfl rfl (by norm_num)).1⟩

/-- Claim C9, counterexample: an original metrics entry is not always
preserved — a metrics key that collides with a prefixed valuation key is
overwritten: metrics {"Val_x": 1} merged with valuations {"x": 2} under the
default prefix yields "Val_x" ↦ 2, losing the original value 1. -/
theorem C9_merge_counterexample :
    dictGet (merge_valuations_into_metrics (.mapping [("Val_x", .num 1)])
        [("x", .num 2)] "Val_") "Val_x"
      = some (.num 2) := by
  with_unfolding_all decide

/-- Claim C9, amended: the merge returns a copy (the embedding is pure, so
the input mapping is untouched by construction) in which every key of the
valuation record appears under the prefix with its valuation value, and
every original metrics entry whose key is not among the prefixed valuation
keys is preserved; a metrics key that equals a prefixed valuation key is
overwritten. -/
theorem C9_merge_amended (metrics valuations : Dict) (pre k k0 : String)
    (hnd : (valuations.map Prod.fst).Nodup) :
    ((dictGet valuations k).isSome = true →
      dictGet (merge_valuations_into_metrics (.mapping metrics) valuations pre) (pre ++ k)
        = dictGet valuations k) ∧
    ((∀ kv ∈ valuations, pre ++ kv.1 ≠ k0) →
      dictGet (merge_valuations_into_metrics (.mapping metrics) valuations pre) k0
        = dictGet metrics k0) := by
  constructor
  · intro hs
    exact mergeFold_get_in pre valuations k metrics hnd hs
  · intro hall
    exact mergeFold_get_notin pre valuations k0 metrics hall

/-- Witness for the amended C9 at concrete records. -/
theorem C9_merge_witness :
    dictGet (merge_valuations_into_metrics (.mapping [("a", .num 1)])
        [("x", .num 2)] "Val_") "Val_x"
      = dictGet [("x", .num 2)] "x" ∧
    dictGet (merge_valuations_into_metrics (.mapping [("a", .num 1)])
        [("x", .num 2)] "Val_") "a"
      = dictGet [("a", .num 1)] "a" :=
  ⟨(C9_merge_amended [("a", .num 1)] [("x", .num 2)] "Val_" "x" "a"
      (by with_unfolding_all decide)).1 (by with_unfolding_all decide),
   (C9_merge_amended [("a", .num 1)] [("x", .num 2)] "Val_" "x" "a"
      (by with_unfolding_all decide)).2 (by with_unfolding_all decide)⟩

/-- Claim C10: a terminal multiple of 0 is Python-falsy, so `get_dcf` treats
it exactly like an absent terminal multiple: the zero exit multiple is never
applied and the Gordon-growth terminal value (with its guard) is used; the
two calls return identical results for every state and parameter choice. -/
theorem C10_terminal_multiple_zero (st : Stock) (years : ℤ)
    (growth discount terminal_growth : ℚ) :
    get_dcf st years growth discount terminal_growth (some 0)
      = get_dcf st years growth discount terminal_growth none := by
  unfold get_dcf
  cases estimateFcf st with
  | none => rfl
  | some f =>
    dsimp only
    by_cases hd : discount ≤ 0
    · simp only [if_pos hd]
    · simp only [if_neg hd]
      simp [dcfTerminalChoice]
